import Mathlib

/-!
Verification of the contractor web-scraper's crawling and field-extraction
core against its natural-language specification.

The Python sources are shallowly embedded as executable Lean definitions:

* `src/utils.py` (`strip_url`, `fetch_site`) together with the parts of
  CPython's `urllib.parse` (`urlparse` / `geturl`) that `strip_url` relies on;
* `src/parsers/TextSnippetScraper.py` (the chunked snippet scan and its
  callback contract), `src/parsers/EmailScraper.py`,
  `src/parsers/PhoneScraper.py`, `src/parsers/AddressScraper.py`;
* `src/handlers/SiteCrawler.py` (the crawl loop, `_scrape_page`,
  `_add_sitemap`) as well as the legacy `src/parsers/SiteCrawler.py` whose
  `_pages` / `_fields` are Python class attributes shared by all instances;
* `src/parsers/SiteMapExtrator.py` (`extract` returning a Python list);
* `src/models/Contractor.py` / `src/typedefs/contractor.py` (the record that
  the scraper callbacks mutate).

Classification oracles (LLM chains) are abstracted as functions
`String → Option String`: `some v` models a non-sentinel answer `v`,
`none` models the sentinel / parse failure / retries-exhausted outcomes,
exactly the cases in which `TextSnippetScraper._process` returns `None`.
Python exceptions that the crawler can see are modelled by `PyExn`,
and `Except PyExn` threads the raise/catch control flow.
-/

/-! ## Character-list string utilities (Python `in` and `str.replace`) -/

/-- Boolean test that `pat` is an initial segment of `l`. -/
def listStartsWith : List Char → List Char → Bool
  | [], _ => true
  | _ :: _, [] => false
  | a :: as, b :: bs => if a = b then listStartsWith as bs else false

/-- Boolean test that `needle` occurs contiguously inside `l`
(Python's `needle in s` on strings). -/
def listContains (needle : List Char) : List Char → Bool
  | [] => listStartsWith needle []
  | c :: cs => listStartsWith needle (c :: cs) || listContains needle cs

/-- Python `needle in s` for strings. -/
def containsSubstr (needle s : String) : Bool :=
  listContains needle.toList s.toList

/-- Fuel-driven worker for `pyReplace`; replaces left to right, without
overlap, as Python `str.replace` does. The fuel is the length of the
subject string, enough because each step consumes at least one character. -/
def pyReplaceAux (needle repl : List Char) : Nat → List Char → List Char
  | 0, l => l
  | fuel + 1, l =>
    match l with
    | [] => []
    | c :: cs =>
      if listStartsWith needle l then
        repl ++ pyReplaceAux needle repl fuel (l.drop needle.length)
      else
        c :: pyReplaceAux needle repl fuel cs

/-- Python `s.replace(needle, repl)` (all occurrences, left to right).
The scrapers only ever call it with the non-empty needles `"mailto:"` and
`"tel:"`, so the empty-needle case may return the subject unchanged. -/
def pyReplace (s needle repl : String) : String :=
  if needle.isEmpty then s
  else ⟨pyReplaceAux needle.toList repl.toList s.toList.length s.toList⟩

/-! ## CPython `urllib.parse` model

`src/utils.py:strip_url` is
`urlparse(url)._replace(path='')._replace(params='').geturl()`.
The definitions below translate the parts of CPython's `urlsplit`,
`_splitparams` and `urlunsplit` that this call exercises for absolute
HTTP(S) URLs. -/

/-- Split a character list at the first occurrence of `sep` (exclusive);
`none` when `sep` does not occur. CPython's `url.find(c)` + slicing. -/
def splitFirst (sep : Char) : List Char → Option (List Char × List Char)
  | [] => none
  | c :: cs =>
    if c = sep then some ([], cs)
    else
      match splitFirst sep cs with
      | some ab => some (c :: ab.1, ab.2)
      | none => none

/-- Characters CPython allows in a URL scheme (`scheme_chars`). -/
def schemeChar (c : Char) : Bool :=
  c.isAlphanum || c = '+' || c = '-' || c = '.'

/-- CPython accepts `url[:i]` as a scheme when it is non-empty, starts with
a letter and consists of scheme characters. -/
def isSchemeName : List Char → Bool
  | [] => false
  | c :: cs => c.isAlpha && (c :: cs).all schemeChar

/-- After `//`, the netloc extends to the first `/`, `?` or `#`
(CPython's delimiter scan in `urlsplit`). -/
def splitNetloc : List Char → List Char × List Char
  | [] => ([], [])
  | c :: cs =>
    if c = '/' || c = '?' || c = '#' then ([], c :: cs)
    else
      let nr := splitNetloc cs
      (c :: nr.1, nr.2)

/-- CPython `_splitparams`: split the last path segment at its first `;`.
Scanning left to right, the split point is the first `;` that has no later
`/`. -/
def splitParams : List Char → List Char × List Char
  | [] => ([], [])
  | c :: cs =>
    if c = ';' && !(cs.contains '/') then ([], cs)
    else
      let pr := splitParams cs
      (c :: pr.1, pr.2)

/-- The six components of CPython's `urlparse` result. -/
structure ParseResult where
  scheme : String
  netloc : String
  path : String
  params : String
  query : String
  fragment : String
deriving DecidableEq, Repr

/-- CPython `urllib.parse.urlparse` for the URL shapes the scraper feeds it:
fragment split first, then scheme (validated and lowercased), then netloc
after `//`, then query, and finally params split out of the last path
segment. -/
def urlparse (url : String) : ParseResult :=
  let l := url.toList
  let fragSplit := splitFirst '#' l
  let rest0 := match fragSplit with
    | some ab => ab.1
    | none => l
  let fragment := match fragSplit with
    | some ab => ab.2
    | none => []
  let schemeSplit := splitFirst ':' rest0
  let hasScheme := match schemeSplit with
    | some ab => isSchemeName ab.1
    | none => false
  let scheme := if hasScheme then
      (match schemeSplit with
        | some ab => ab.1.map Char.toLower
        | none => [])
    else []
  let rest1 := if hasScheme then
      (match schemeSplit with
        | some ab => ab.2
        | none => rest0)
    else rest0
  let netlocSplit := match rest1 with
    | '/' :: '/' :: r => splitNetloc r
    | _ => (([] : List Char), rest1)
  let querySplit := splitFirst '?' netlocSplit.2
  let pathq := match querySplit with
    | some ab => ab.1
    | none => netlocSplit.2
  let query := match querySplit with
    | some ab => ab.2
    | none => []
  let pathParams := if pathq.contains ';' then splitParams pathq else (pathq, [])
  { scheme := ⟨scheme⟩
    netloc := ⟨netlocSplit.1⟩
    path := ⟨pathParams.1⟩
    params := ⟨pathParams.2⟩
    query := ⟨query⟩
    fragment := ⟨fragment⟩ }

/-- CPython `ParseResult.geturl` (`urlunparse` composed with `urlunsplit`). -/
def ParseResult.geturl (r : ParseResult) : String :=
  let urlp := if !r.params.isEmpty then r.path ++ ";" ++ r.params else r.path
  let u1 := if !r.netloc.isEmpty || listStartsWith ['/', '/'] urlp.toList then
      "//" ++ r.netloc ++
        (if !urlp.isEmpty && !listStartsWith ['/'] urlp.toList then "/" ++ urlp else urlp)
    else urlp
  let u2 := if !r.scheme.isEmpty then r.scheme ++ ":" ++ u1 else u1
  let u3 := if !r.query.isEmpty then u2 ++ "?" ++ r.query else u2
  if !r.fragment.isEmpty then u3 ++ "#" ++ r.fragment else u3

/-- `src/utils.py:strip_url`:
`urlparse(url)._replace(path='')._replace(params='').geturl()`.
Note the code replaces `path` and `params`, not `query`. -/
def strip_url (url : String) : String :=
  ParseResult.geturl { urlparse url with path := "", params := "" }

/-! ## Contractor record (`src/typedefs/contractor.py`)

Optional fields start as Python `None`; the `set_*` methods are the
callbacks handed to the scrapers. -/

/-- One business record (`Contractor`). -/
structure Contractor where
  title : String
  description : String
  url : String
  services : List String := []
  address : Option String := none
  location : Option String := none
  projects : List String := []
  phone : Option String := none
  email : Option String := none
deriving DecidableEq, Repr

/-- `Contractor.set_address`: the address-scraper callback. -/
def Contractor.set_address (c : Contractor) (address : String) : Contractor :=
  { c with address := some address }

/-- `Contractor.set_phone`: the phone-scraper callback. -/
def Contractor.set_phone (c : Contractor) (phone : String) : Contractor :=
  { c with phone := some phone }

/-- `Contractor.set_email`: the email-scraper callback. -/
def Contractor.set_email (c : Contractor) (email : String) : Contractor :=
  { c with email := some email }

/-- `_FieldType` from `src/handlers/SiteCrawler.py`: the three fields the
crawler tries to fill. -/
inductive FieldType
  | address
  | email
  | phone
deriving DecidableEq, Repr

/-- Read the contractor attribute a field type refers to. -/
def FieldType.read (f : FieldType) (c : Contractor) : Option String :=
  match f with
  | .address => c.address
  | .email => c.email
  | .phone => c.phone

/-- `_FieldType.get_callback`: dispatch to the matching `set_*` method. -/
def FieldType.set (f : FieldType) (c : Contractor) (v : String) : Contractor :=
  match f with
  | .address => c.set_address v
  | .email => c.set_email v
  | .phone => c.set_phone v

/-- `default_fields()`: the pending set a fresh crawler starts from,
`{address, email, phone}`. -/
def default_fields : List FieldType := [.address, .email, .phone]

/-! ## Document model for the scrapers

A fetched page, as the scrapers look at it: its anchor tags (with their
optional `href` attributes), the first `<footer>` / `<header>` section if
present, the `find_all(tag)` lists of small text elements in document
order, and the first/last 5000-character serialized chunks. Snippets are
identified by their serialized text, the very string handed to the
classification oracle. -/

/-- An `<a>` tag as the email/phone shortcuts see it: its `href`
attribute, when present. -/
structure Anchor where
  href : Option String
deriving DecidableEq, Repr

/-- A sanitized page body from the scrapers' point of view. -/
structure Doc where
  anchors : List Anchor
  footer : Option String
  header : Option String
  elems : String → List String
  firstChunk : String
  lastChunk : String

/-- Tag names scanned by `TextSnippetScraper._snippet_chunks`, in the
source's order. -/
def smallTags : List String := ["p", "span", "a", "strong", "li", "b", "u", "font"]

/-- The candidate snippets of the chunked scan: for each tag name in turn,
its elements in document order, accumulated into one stream (the Python
generator keeps a single `chunks` buffer across tag names). -/
def candidates (d : Doc) : List String :=
  (smallTags.map d.elems).flatten

/-- The batching loop of `_snippet_chunks`: append each candidate to the
buffer and yield the buffer whenever it reaches `n`; a final buffer
shorter than `n` is never yielded (the generator just ends). -/
def fullChunksAux {α : Type} (n : Nat) (acc : List α) : List α → List (List α)
  | [] => []
  | x :: xs =>
    let acc2 := acc ++ [x]
    if n ≤ acc2.length then acc2 :: fullChunksAux n [] xs
    else fullChunksAux n acc2 xs

/-- `_snippet_chunks` batching over an explicit candidate list. -/
def fullChunks {α : Type} (n : Nat) (l : List α) : List (List α) :=
  fullChunksAux n [] l

/-- `TextSnippetScraper._snippet_chunks` with the class's
`_chunk_size = 100`. -/
def snippet_chunks (d : Doc) : List (List String) :=
  fullChunks 100 (candidates d)

/-- First non-`none` result in a batch, in traversal order
(the scan over `asyncio.gather`'s result list in `_process_chunks`). -/
def firstSome : List (Option String) → Option String
  | [] => none
  | r :: rest =>
    match r with
    | some v => some v
    | none => firstSome rest

/-- Run `_process_chunks` over the successive batches: the whole batch is
classified (all its oracle calls happen), then the first non-sentinel
answer wins and later batches are not attempted. Returns the answer and
the snippets the oracle was invoked on. -/
def scanChunks (oracle : String → Option String) :
    List (List String) → Option String × List String
  | [] => (none, [])
  | chunk :: rest =>
    match firstSome (chunk.map oracle) with
    | some v => (some v, chunk)
    | none =>
      let r := scanChunks oracle rest
      (r.1, chunk ++ r.2)

/-- One `footer` / `header` attempt in `TextSnippetScraper.__call__`:
absent section means no oracle call; a present section is classified once. -/
def sectionTry (oracle : String → Option String) :
    Option String → Option String × List String
  | none => (none, [])
  | some s => (oracle s, [s])

/-- Result of a scraper call: the returned boolean, the values passed to
the `Contractor` callback, and the snippets sent to the classification
oracle, in order. -/
structure ScrapeOut where
  found : Bool
  callbacks : List String
  oracleCalls : List String
deriving DecidableEq, Repr

/-- `TextSnippetScraper.__call__`: footer, header, chunked small-element
scan, then the first and last 5000-character chunks; the first
non-sentinel answer is passed to the callback exactly once and `True` is
returned, otherwise `False` with no callback. -/
def tssCall (oracle : String → Option String) (d : Doc) : ScrapeOut :=
  let ft := sectionTry oracle d.footer
  match ft.1 with
  | some v => ⟨true, [v], ft.2⟩
  | none =>
    let hd := sectionTry oracle d.header
    match hd.1 with
    | some v => ⟨true, [v], ft.2 ++ hd.2⟩
    | none =>
      let ch := scanChunks oracle (snippet_chunks d)
      match ch.1 with
      | some v => ⟨true, [v], ft.2 ++ hd.2 ++ ch.2⟩
      | none =>
        match oracle d.firstChunk with
        | some v => ⟨true, [v], ft.2 ++ hd.2 ++ ch.2 ++ [d.firstChunk]⟩
        | none =>
          match oracle d.lastChunk with
          | some v => ⟨true, [v], ft.2 ++ hd.2 ++ ch.2 ++ [d.firstChunk, d.lastChunk]⟩
          | none => ⟨false, [], ft.2 ++ hd.2 ++ ch.2 ++ [d.firstChunk, d.lastChunk]⟩

/-- The anchor test of the email/phone shortcuts:
`'href' in tag.attrs and needle in tag.attrs['href']`. -/
def anchorHas (needle : String) (a : Anchor) : Bool :=
  match a.href with
  | some h => containsSubstr needle h
  | none => false

/-- The `for tag in content.find_all('a')` loops of `EmailScraper` and
`PhoneScraper`: the href of the first anchor containing `needle`. -/
def findHrefWith (needle : String) : List Anchor → Option String
  | [] => none
  | a :: rest =>
    match a.href with
    | some h => if containsSubstr needle h then some h else findHrefWith needle rest
    | none => findHrefWith needle rest

/-- `EmailScraper.__call__`: `mailto` anchor shortcut (note the needle has
no colon while the stripped text is `"mailto:"`), else defer to the
text-snippet base class. -/
def emailCall (oracle : String → Option String) (d : Doc) : ScrapeOut :=
  match findHrefWith "mailto" d.anchors with
  | some h => ⟨true, [pyReplace h "mailto:" ""], []⟩
  | none => tssCall oracle d

/-- `PhoneScraper.__call__`: `tel:` anchor shortcut, else defer to the
text-snippet base class. -/
def phoneCall (oracle : String → Option String) (d : Doc) : ScrapeOut :=
  match findHrefWith "tel:" d.anchors with
  | some h => ⟨true, [pyReplace h "tel:" ""], []⟩
  | none => tssCall oracle d

/-! ## AddressScraper (`src/parsers/AddressScraper.py`)

Unlike the other two scrapers it predates `TextSnippetScraper`: its
`__call__` is annotated `-> NoReturn` and every exit is either
`return callback(address)` or a bare `return`, both of which produce the
Python value `None` — never `True`. -/

/-- A Python return value as the crawler's `if result:` sees it. -/
inductive PyRet
  | pyBool (b : Bool)
  | pyNone
deriving DecidableEq, Repr

/-- Python truthiness of a scraper's return value. -/
def PyRet.truthy : PyRet → Bool
  | .pyBool b => b
  | .pyNone => false

/-- Result of `AddressScraper.__call__`: the Python return value and the
values passed to the callback. -/
structure AddrOut where
  ret : PyRet
  callbacks : List String
deriving DecidableEq, Repr

/-- First snippet the oracle answers on, scanning one element at a time
(AddressScraper classifies candidates sequentially, not in batches). -/
def firstHit (oracle : String → Option String) : List String → Option String
  | [] => none
  | s :: rest =>
    match oracle s with
    | some v => some v
    | none => firstHit oracle rest

/-- AddressScraper's small-element candidates: only `p`, `span`, `a`. -/
def addrCandidates (d : Doc) : List String :=
  (["p", "span", "a"].map d.elems).flatten

/-- `AddressScraper.__call__`: footer, header, the `p`/`span`/`a` elements
one by one, then first/last 5000-character chunks. Every branch returns
Python `None`: on success the value of `callback(address)`, on failure a
bare `return`. -/
def addressCall (oracle : String → Option String) (d : Doc) : AddrOut :=
  match d.footer.bind oracle with
  | some v => ⟨PyRet.pyNone, [v]⟩
  | none =>
    match d.header.bind oracle with
    | some v => ⟨PyRet.pyNone, [v]⟩
    | none =>
      match firstHit oracle (addrCandidates d) with
      | some v => ⟨PyRet.pyNone, [v]⟩
      | none =>
        match oracle d.firstChunk with
        | some v => ⟨PyRet.pyNone, [v]⟩
        | none =>
          match oracle d.lastChunk with
          | some v => ⟨PyRet.pyNone, [v]⟩
          | none => ⟨PyRet.pyNone, []⟩

/-! ## The crawl loop of `src/handlers/SiteCrawler.py`

`__call__` pops one page at a time while both the pending-field set and
the frontier are non-empty; `_scrape_page` runs one scraper per pending
field against the fetched page, gathers all their boolean results, and
only then removes every field whose scraper reported found.

The frontier (a Python set) is modelled as a duplicate-free list whose
head is the popped element; the claims quantify over the initial frontier,
which covers every pop order. Scraper outcomes are abstracted by an oracle
`o : String → FieldType → Option String`: `o page f = some v` means the
scraper for `f` invoked its callback with `v` and returned a truthy
result on `page`. `fetchOk page = false` models a fetch failure that
`_scrape_page` catches (its `except ValueError` branch): the page is
consumed and nothing else changes. -/

/-- The `asyncio.gather` of `_scrape_page`: one scraper per pending field,
in the set's iteration order, paired with its outcome (`zip(results,
self._fields)` walks the same order). -/
def scrape_results (o : String → FieldType → Option String) (url : String)
    (fields : List FieldType) : List (FieldType × Option String) :=
  fields.map (fun f => (f, o url f))

/-- The callback side effects of the gathered scrapers: each successful
scraper passed its value to the contractor's setter for its field. -/
def apply_callbacks (rs : List (FieldType × Option String)) (c : Contractor) :
    Contractor :=
  rs.foldl
    (fun acc r =>
      match r.2 with
      | some v => r.1.set acc v
      | none => acc) c

/-- The `_removal` set of `_scrape_page`: the fields whose gathered result
was truthy. -/
def removal_set (rs : List (FieldType × Option String)) : List FieldType :=
  rs.foldl (fun acc r => if r.2.isSome then r.1 :: acc else acc) []

/-- `SiteCrawler._scrape_page` after a successful fetch: build one scraper
per pending field, gather all results, apply the callbacks, then remove
exactly the fields whose result was truthy. Returns the remaining pending
fields and the updated contractor. -/
def scrape_page (o : String → FieldType → Option String) (url : String)
    (fields : List FieldType) (c : Contractor) : List FieldType × Contractor :=
  let results := scrape_results o url fields
  (fields.filter (fun f => decide (f ∉ removal_set results)),
    apply_callbacks results c)

/-- Final state and visit trace of one crawl: the frontier and pending
fields left behind, the contractor after all callbacks, and for every
popped page the pending-field set that was scraped there (empty for a
page whose fetch failed). -/
structure CrawlOut where
  pages : List String
  fields : List FieldType
  contractor : Contractor
  trace : List (String × List FieldType)
deriving Repr

/-- The `while self._fields and self._pages` loop of
`SiteCrawler.__call__`: nothing inside the loop ever adds to the frontier
(`_add_sitemap` runs once before it), each iteration pops exactly one
page. -/
def crawl_loop (fetchOk : String → Bool) (o : String → FieldType → Option String) :
    List String → List FieldType → Contractor → CrawlOut
  | [], fields, c => ⟨[], fields, c, []⟩
  | p :: rest, fields, c =>
    if fields.isEmpty then ⟨p :: rest, fields, c, []⟩
    else if fetchOk p then
      let st := scrape_page o p fields c
      let r := crawl_loop fetchOk o rest st.1 st.2
      ⟨r.pages, r.fields, r.contractor, (p, fields) :: r.trace⟩
    else
      let r := crawl_loop fetchOk o rest fields c
      ⟨r.pages, r.fields, r.contractor, (p, []) :: r.trace⟩

/-- Per-crawl state right after `SiteCrawler.__init__`
(`src/handlers/SiteCrawler.py`): fresh sets, frontier seeded with the
contractor's homepage. -/
structure SiteCrawlerState where
  pages : List String
  fields : List FieldType
  contractor : Contractor
deriving DecidableEq, Repr

/-- `SiteCrawler.__init__` of `src/handlers/SiteCrawler.py`: assigns
`self._pages = set()`, `self._fields = default_fields()`, then adds the
contractor's URL. -/
def SiteCrawler.init (contractor : Contractor) : SiteCrawlerState :=
  { pages := [contractor.url], fields := default_fields, contractor := contractor }

/-- The pending fields named by a crawl's final state read the same as in
the initial contractor (used to state that unresolved fields stay unset). -/
def fieldsUnchanged (fs : List FieldType) (c0 c1 : Contractor) : Prop :=
  ∀ f ∈ fs, f.read c1 = f.read c0

instance (fs : List FieldType) (c0 c1 : Contractor) :
    Decidable (fieldsUnchanged fs c0 c1) :=
  List.decidableBAll _ fs

/-- Along a crawl trace, a field found on a page is never part of the
pending set scraped on any later page (first-found-wins per field across
the whole crawl). -/
def foundNeverRescraped (o : String → FieldType → Option String) :
    List (String × List FieldType) → Prop
  | [] => True
  | (p, fs) :: rest =>
    (∀ f ∈ fs, (o p f).isSome = true → ∀ e ∈ rest, f ∉ e.2) ∧
      foundNeverRescraped o rest

/-! ## Legacy `src/parsers/SiteCrawler.py`

There `_pages : set[str] = set()` and `_fields = default_fields()` are
class attributes: one set object shared by every instance. `__init__`
only does `self._pages.add(contractor.url)`, mutating the shared set, so
the state a new crawler starts from depends on every crawler created or
run before it. -/

/-- The shared class attributes of `parsers.SiteCrawler`. -/
structure PSiteCrawlerClassState where
  pages : List String
  fields : List FieldType
deriving DecidableEq, Repr

/-- Python `set.add`: insert if absent (append keeps a list model). -/
def addIfNew (u : String) (pages : List String) : List String :=
  if u ∈ pages then pages else pages ++ [u]

/-- The class attributes at module import time:
`_pages = set()`, `_fields = default_fields()`. -/
def pInitial : PSiteCrawlerClassState :=
  { pages := [], fields := default_fields }

/-- `parsers.SiteCrawler.__init__`: adds the contractor's URL to the
*shared* class-level page set; the field set is not touched. -/
def pInit (cls : PSiteCrawlerClassState) (contractor : Contractor) : PSiteCrawlerClassState :=
  { cls with pages := addIfNew contractor.url cls.pages }

/-! ## Exception-level model: fetching, `_scrape_page`, `_add_sitemap`

`fetch_site` (`src/utils.py`) performs the HTTP GET through a
`RetryClient` and then takes `soup.find('body')`. When the response has
no `<body>`, `body` is Python `None` and the following
`body.find_all(tag)` raises `AttributeError`. Network failures surface as
`aiohttp` client errors, timeouts as timeout errors; none of these is a
`ValueError`. `SiteCrawler._scrape_page` and `SiteCrawler._add_sitemap`
catch exactly `ValueError`. -/

/-- The Python exception classes that can reach the crawler, distinguished
by whether `except ValueError` catches them. `valueError` also stands for
its subclasses, such as langchain's `OutputParserException`. -/
inductive PyExn
  | valueError
  | attributeError
  | clientError
  | timeoutError
deriving DecidableEq, Repr

/-- Outcome of the HTTP layer for one URL, after `RetryClient`'s internal
retries: an exception, or a response whose parsed body is present or
absent. -/
inductive FetchResp
  | fail (e : PyExn)
  | page (body : Option (List Anchor))

/-- `src/utils.py:fetch_site`: propagate HTTP-layer exceptions; a response
without a `<body>` makes `soup.find('body')` return `None`, and the tag
cleanup loop then raises `AttributeError`; otherwise the body is
returned. -/
def fetch_site (world : String → FetchResp) (url : String) :
    Except PyExn (List Anchor) :=
  match world url with
  | .fail e => .error e
  | .page none => .error PyExn.attributeError
  | .page (some anchors) => .ok anchors

/-- `SiteCrawler._scrape_page` with its exception behaviour: only
`ValueError` is caught (page skipped, state unchanged); any other
exception propagates to the caller. -/
def scrape_page_x (world : String → FetchResp)
    (o : String → FieldType → Option String) (url : String)
    (fields : List FieldType) (c : Contractor) :
    Except PyExn (List FieldType × Contractor) :=
  match fetch_site world url with
  | .error e => if e = PyExn.valueError then .ok (fields, c) else .error e
  | .ok _body => .ok (scrape_page o url fields c)

/-- The crawl loop of `SiteCrawler.__call__` with exceptions: an uncaught
exception from `_scrape_page` aborts the whole crawl. -/
def crawl_loop_x (world : String → FetchResp)
    (o : String → FieldType → Option String) :
    List String → List FieldType → Contractor →
    Except PyExn (List String × List FieldType × Contractor)
  | [], fields, c => .ok ([], fields, c)
  | p :: rest, fields, c =>
    if fields.isEmpty then .ok (p :: rest, fields, c)
    else
      match scrape_page_x world o p fields c with
      | .error e => .error e
      | .ok st => crawl_loop_x world o rest st.1 st.2

/-- A Python value as `_add_sitemap` receives it from the extractor
chain: the `list[str]` that `SiteMapExtractor.extract` actually returns,
or the `SiteMap` pydantic model (`src/typedefs/sitemap.py`) that the
`getattr(sitemap, 'about')` code expects. -/
inductive PyVal
  | pyList (items : List String)
  | pySiteMap (about contact : Option String)
deriving DecidableEq, Repr

/-- Python `getattr(v, attr)` for the two attributes `_add_sitemap` reads:
a `list` has neither, so the access raises `AttributeError`. -/
def pyGetattr (v : PyVal) (attr : String) : Except PyExn (Option String) :=
  match v with
  | .pyList _ => .error PyExn.attributeError
  | .pySiteMap about contact =>
    if attr = "about" then .ok about
    else if attr = "contact" then .ok contact
    else .error PyExn.attributeError

/-- `SiteMapExtractor.extract` (`src/parsers/SiteMapExtrator.py`): fetch
the homepage, pass its anchors through the LLM chain, and return the
extracted URL list — a Python `list`, not a `SiteMap` object. The chain
may itself raise (e.g. `OutputParserException`, a `ValueError`). -/
def siteMapExtract (world : String → FetchResp)
    (chain : List Anchor → Except PyExn (List String)) (url : String) :
    Except PyExn PyVal :=
  match fetch_site world url with
  | .error e => .error e
  | .ok anchors =>
    match chain anchors with
    | .error e => .error e
    | .ok urls => .ok (PyVal.pyList urls)

/-- The body of `_add_sitemap`'s `try` block, threading the page-set
mutations done before an exception: extract the site map, then for
`about` and `contact` in turn `getattr` the attribute and, when truthy,
add it to the frontier. -/
def add_sitemap_run (world : String → FetchResp)
    (chain : List Anchor → Except PyExn (List String)) (url : String)
    (pages : List String) : List String × Option PyExn :=
  match siteMapExtract world chain url with
  | .error e => (pages, some e)
  | .ok sitemap =>
    match pyGetattr sitemap "about" with
    | .error e => (pages, some e)
    | .ok about =>
      let pages1 := match about with
        | some u => addIfNew u pages
        | none => pages
      match pyGetattr sitemap "contact" with
      | .error e => (pages1, some e)
      | .ok contact =>
        let pages2 := match contact with
          | some u => addIfNew u pages1
          | none => pages1
        (pages2, none)

/-- `SiteCrawler._add_sitemap`: run the `try` block; `except ValueError`
logs and keeps going, every other exception propagates. -/
def add_sitemap (world : String → FetchResp)
    (chain : List Anchor → Except PyExn (List String)) (url : String)
    (pages : List String) : Except PyExn (List String) :=
  match add_sitemap_run world chain url pages with
  | (ps, none) => .ok ps
  | (ps, some PyExn.valueError) => .ok ps
  | (_, some e) => .error e

/-- `SiteCrawler.__call__` of `src/handlers/SiteCrawler.py` at the
exception level: `_add_sitemap` first (once), then the crawl loop over
the resulting frontier. -/
def siteCrawler_call_x (world : String → FetchResp)
    (chain : List Anchor → Except PyExn (List String))
    (o : String → FieldType → Option String) (c : Contractor) :
    Except PyExn (List String × List FieldType × Contractor) :=
  match add_sitemap world chain c.url [c.url] with
  | .error e => .error e
  | .ok pages => crawl_loop_x world o pages default_fields c

/-! ## `SearchHandler._extract_contractor` (`src/handlers/SearchHandler.py`) -/

/-- A search collaborator result (`src/typedefs/search.py`). -/
structure SearchResult where
  title : String
  description : String
  url : String
deriving DecidableEq, Repr

/-- `SearchHandler._extract_contractor`: the Contractor is created with
the LLM-extracted name, the result's description, and `strip_url` applied
to the result's URL. -/
def extract_contractor (name : String) (result : SearchResult) : Contractor :=
  { title := name, description := result.description, url := strip_url result.url }

/-! ## Concrete fixtures for the evaluated theorems -/

/-- A contractor as produced by the search stage, all scraped fields
unset. -/
def contractor0 : Contractor :=
  { title := "Acme Builders", description := "general contractor", url := "https://acme.example" }

/-- Second contractor, for the shared-class-state scenario. -/
def contractorB : Contractor :=
  { title := "Beta Construction", description := "roofing", url := "https://beta.example" }

/-- Outcome oracle under which no scraper ever finds anything. -/
def oracleNone : String → FieldType → Option String := fun _ _ => none

/-- Snippet oracle that never answers. -/
def snipOracleNone : String → Option String := fun _ => none

/-- A world where every fetch succeeds with an empty body. -/
def worldOkEmpty : String → FetchResp := fun _ => FetchResp.page (some [])

/-- A world where every response lacks a `<body>` element. -/
def worldNoBody : String → FetchResp := fun _ => FetchResp.page none

/-- A world where the HTTP layer raises a client (network) error. -/
def worldNetErr : String → FetchResp := fun _ => FetchResp.fail PyExn.clientError

/-- A world where the HTTP layer raises a timeout error. -/
def worldTimeout : String → FetchResp := fun _ => FetchResp.fail PyExn.timeoutError

/-- A world where fetching raises a `ValueError` (the only exception class
`_scrape_page` catches). -/
def worldValueErr : String → FetchResp := fun _ => FetchResp.fail PyExn.valueError

/-- A site-map chain run that succeeds and extracts two URLs. -/
def chainOk : List Anchor → Except PyExn (List String) :=
  fun _ => .ok ["https://acme.example/about", "https://acme.example/contact"]

/-- A site-map chain run that fails to parse the LLM output
(`OutputParserException`, a `ValueError` subclass). -/
def chainParseFail : List Anchor → Except PyExn (List String) :=
  fun _ => .error PyExn.valueError

/-- A document whose only chunked-scan candidate is a single `<p>`
element; no footer, header or anchors. -/
def docLonePara : Doc :=
  { anchors := []
    footer := none
    header := none
    elems := fun t => if t = "p" then ["LONE-PARAGRAPH"] else []
    firstChunk := "FIRST5000"
    lastChunk := "LAST5000" }

/-- Oracle that recognizes the lone paragraph and nothing else. -/
def oracleLonePara : String → Option String :=
  fun s => if s = "LONE-PARAGRAPH" then some "42 Elm St" else none

/-- A document holding two `mailto:` anchors; the `info@x.com` one is
second. -/
def docTwoMailto : Doc :=
  { anchors := [Anchor.mk (some "mailto:sales@other.com"), Anchor.mk (some "mailto:info@x.com")]
    footer := none
    header := none
    elems := fun _ => []
    firstChunk := "F"
    lastChunk := "L" }

/-- A document whose only anchor is the `mailto:info@x.com` one. -/
def docOneMailto : Doc :=
  { anchors := [Anchor.mk (some "mailto:info@x.com")]
    footer := none
    header := none
    elems := fun _ => []
    firstChunk := "F"
    lastChunk := "L" }

/-- A document whose only anchor is a `tel:` link. -/
def docTel : Doc :=
  { anchors := [Anchor.mk (some "tel:+15551234567")]
    footer := none
    header := none
    elems := fun _ => []
    firstChunk := "F"
    lastChunk := "L" }

/-- A document whose footer contains a mailing address. -/
def docFooterAddr : Doc :=
  { anchors := []
    footer := some "FOOTER-SECTION"
    header := none
    elems := fun _ => []
    firstChunk := "F"
    lastChunk := "L" }

/-- Address oracle that extracts an address from the footer section. -/
def oracleFooterAddr : String → Option String :=
  fun s => if s = "FOOTER-SECTION" then some "123 Main St, Springfield" else none

/-- The search result whose URL carries a query string. -/
def searchResultQuery : SearchResult :=
  { title := "Acme Builders | Directory"
    description := "directory listing"
    url := "https://www.example.com/contractors/list?page=2" }

/-- A fetch layer that always succeeds, for the crawl-loop witness. -/
def fetchAllOk : String → Bool := fun _ => true

/-- A two-page frontier, for the crawl-loop witness. -/
def witPages : List String := ["https://acme.example", "https://acme.example/about"]

/-! ## Lemmas about `scrape_page` -/

theorem FieldType.read_set_ne (f g : FieldType) (c : Contractor) (v : String)
    (h : f ≠ g) : f.read (g.set c v) = f.read c := by
  cases f <;> cases g <;>
    simp_all [FieldType.read, FieldType.set, Contractor.set_address,
      Contractor.set_email, Contractor.set_phone]

theorem read_foldUpdate (f : FieldType) (rs : List (FieldType × Option String))
    (c : Contractor) (h : ∀ r ∈ rs, r.2.isSome = true → r.1 ≠ f) :
    f.read (rs.foldl (fun acc r =>
      match r.2 with
      | some v => r.1.set acc v
      | none => acc) c) = f.read c := by
  induction rs generalizing c with
  | nil => rfl
  | cons r rest ih =>
    have hrest : ∀ x ∈ rest, x.2.isSome = true → x.1 ≠ f :=
      fun x hx => h x (List.mem_cons_of_mem _ hx)
    simp only [List.foldl_cons]
    cases hr2 : r.2 with
    | none =>
      simp only [hr2]
      exact ih _ hrest
    | some v =>
      simp only [hr2]
      rw [ih _ hrest]
      have hne : f ≠ r.1 := by
        intro hEq
        exact (h r (List.mem_cons_self r rest) (by simp [hr2])) hEq.symm
      exact FieldType.read_set_ne f r.1 c v hne

theorem mem_removalFoldAux (f : FieldType) (rs : List (FieldType × Option String))
    (acc : List FieldType) :
    (f ∈ rs.foldl (fun a r => if r.2.isSome then r.1 :: a else a) acc) ↔
      (f ∈ acc ∨ ∃ r ∈ rs, r.1 = f ∧ r.2.isSome = true) := by
  induction rs generalizing acc with
  | nil => simp
  | cons r rest ih =>
    simp only [List.foldl_cons]
    by_cases hr : r.2.isSome = true
    · rw [if_pos hr, ih]
      constructor
      · rintro (hmem | ⟨x, hx, hx1, hx2⟩)
        · rcases List.mem_cons.mp hmem with hEq | hmem2
          · exact Or.inr ⟨r, List.mem_cons_self r rest, hEq.symm, hr⟩
          · exact Or.inl hmem2
        · exact Or.inr ⟨x, List.mem_cons_of_mem r hx, hx1, hx2⟩
      · rintro (hmem | ⟨x, hx, hx1, hx2⟩)
        · exact Or.inl (List.mem_cons_of_mem _ hmem)
        · rcases List.mem_cons.mp hx with hEq | hxr
          · refine Or.inl (List.mem_cons.mpr (Or.inl ?_))
            rw [hEq] at hx1
            exact hx1.symm
          · exact Or.inr ⟨x, hxr, hx1, hx2⟩
    · rw [if_neg hr, ih]
      constructor
      · rintro (hmem | ⟨x, hx, hx1, hx2⟩)
        · exact Or.inl hmem
        · exact Or.inr ⟨x, List.mem_cons_of_mem r hx, hx1, hx2⟩
      · rintro (hmem | ⟨x, hx, hx1, hx2⟩)
        · exact Or.inl hmem
        · rcases List.mem_cons.mp hx with hEq | hxr
          · exact absurd (hEq ▸ hx2) hr
          · exact Or.inr ⟨x, hxr, hx1, hx2⟩

theorem mem_removal_set (o : String → FieldType → Option String) (url : String)
    (fields : List FieldType) (f : FieldType) :
    (f ∈ removal_set (scrape_results o url fields)) ↔
      (f ∈ fields ∧ (o url f).isSome = true) := by
  unfold removal_set scrape_results
  rw [mem_removalFoldAux]
  constructor
  · rintro (hacc | ⟨x, hx, hx1, hx2⟩)
    · exact absurd hacc (List.not_mem_nil f)
    · rcases List.mem_map.mp hx with ⟨g, hg, hgr⟩
      subst hgr
      have hgf : g = f := hx1
      subst hgf
      exact ⟨hg, hx2⟩
  · rintro ⟨hf, hsome⟩
    exact Or.inr ⟨(f, o url f), List.mem_map.mpr ⟨f, hf, rfl⟩, rfl, hsome⟩

theorem scrape_page_fields_eq (o : String → FieldType → Option String)
    (url : String) (fields : List FieldType) (c : Contractor) :
    (scrape_page o url fields c).1 = fields.filter (fun f => (o url f).isNone) := by
  show fields.filter (fun f => decide (f ∉ removal_set (scrape_results o url fields))) = _
  apply List.filter_congr
  intro f hf
  by_cases hsome : (o url f).isSome = true
  · obtain ⟨v, hv⟩ := Option.isSome_iff_exists.mp hsome
    have hmem : f ∈ removal_set (scrape_results o url fields) :=
      (mem_removal_set o url fields f).mpr ⟨hf, hsome⟩
    rw [hv, Option.isNone_some]
    exact decide_eq_false (fun hn => hn hmem)
  · have hnone : o url f = none := Option.not_isSome_iff_eq_none.mp (by simpa using hsome)
    have hnotmem : f ∉ removal_set (scrape_results o url fields) :=
      fun hm => hsome ((mem_removal_set o url fields f).mp hm).2
    rw [hnone, Option.isNone_none]
    exact decide_eq_true hnotmem

theorem mem_scrape_page_fields (o : String → FieldType → Option String)
    (url : String) (fields : List FieldType) (c : Contractor) (f : FieldType) :
    f ∈ (scrape_page o url fields c).1 ↔ (f ∈ fields ∧ o url f = none) := by
  rw [scrape_page_fields_eq]
  simp [List.mem_filter, Option.isNone_iff_eq_none]

theorem scrape_page_read_of_none (o : String → FieldType → Option String)
    (url : String) (fields : List FieldType) (c : Contractor) (f : FieldType)
    (h : o url f = none) :
    f.read (scrape_page o url fields c).2 = f.read c := by
  show f.read (apply_callbacks (scrape_results o url fields) c) = f.read c
  unfold apply_callbacks
  apply read_foldUpdate
  intro r hr hsome
  rcases List.mem_map.mp hr with ⟨g, _, hgr⟩
  subst hgr
  intro hgf
  have hgf2 : g = f := hgf
  subst hgf2
  have hSome : (o url g).isSome = true := hsome
  rw [h] at hSome
  exact Bool.noConfusion hSome

/-! ## Lemmas about the crawl loop -/

theorem crawl_loop_split (fetchOk : String → Bool)
    (o : String → FieldType → Option String) (pages : List String)
    (fields : List FieldType) (c : Contractor) :
    ((crawl_loop fetchOk o pages fields c).trace.map Prod.fst) ++
      (crawl_loop fetchOk o pages fields c).pages = pages := by
  induction pages generalizing fields c with
  | nil => rfl
  | cons p rest ih =>
    simp only [crawl_loop]
    by_cases hf : fields.isEmpty = true
    · simp [hf]
    · by_cases hp : fetchOk p = true
      · simp [hf, hp, ih]
      · simp [hf, hp, ih]

theorem crawl_loop_guard (fetchOk : String → Bool)
    (o : String → FieldType → Option String) (pages : List String)
    (fields : List FieldType) (c : Contractor) :
    (crawl_loop fetchOk o pages fields c).fields = [] ∨
      (crawl_loop fetchOk o pages fields c).pages = [] := by
  induction pages generalizing fields c with
  | nil => exact Or.inr rfl
  | cons p rest ih =>
    simp only [crawl_loop]
    by_cases hf : fields.isEmpty = true
    · simp only [hf, if_true]
      exact Or.inl (List.isEmpty_iff.mp hf)
    · by_cases hp : fetchOk p = true
      · simp only [hf, hp, if_false, if_true, Bool.false_eq_true]
        exact ih _ _
      · simp only [hf, hp, if_false, Bool.false_eq_true]
        exact ih _ _

theorem crawl_loop_fields_sub (fetchOk : String → Bool)
    (o : String → FieldType → Option String) (pages : List String)
    (fields : List FieldType) (c : Contractor) (f : FieldType) :
    f ∈ (crawl_loop fetchOk o pages fields c).fields → f ∈ fields := by
  induction pages generalizing fields c with
  | nil => exact fun h => h
  | cons p rest ih =>
    simp only [crawl_loop]
    by_cases hf : fields.isEmpty = true
    · simp only [hf, if_true]
      exact fun h => h
    · by_cases hp : fetchOk p = true
      · simp only [hf, hp, if_false, if_true, Bool.false_eq_true]
        intro h
        have h2 := ih _ _ h
        exact ((mem_scrape_page_fields o p fields c f).mp h2).1
      · simp only [hf, hp, if_false, Bool.false_eq_true]
        exact ih _ _

theorem crawl_loop_read (fetchOk : String → Bool)
    (o : String → FieldType → Option String) (pages : List String)
    (fields : List FieldType) (c : Contractor) (f : FieldType) :
    f ∈ (crawl_loop fetchOk o pages fields c).fields →
      f.read (crawl_loop fetchOk o pages fields c).contractor = f.read c := by
  induction pages generalizing fields c with
  | nil => exact fun _ => rfl
  | cons p rest ih =>
    simp only [crawl_loop]
    by_cases hf : fields.isEmpty = true
    · simp only [hf, if_true]
      exact fun _ => trivial
    · by_cases hp : fetchOk p = true
      · simp only [hf, hp, if_false, if_true, Bool.false_eq_true]
        intro h
        have h1 := ih _ _ h
        have h2 := crawl_loop_fields_sub fetchOk o rest _ _ f h
        have h3 := ((mem_scrape_page_fields o p fields c f).mp h2).2
        rw [h1, scrape_page_read_of_none o p fields c f h3]
      · simp only [hf, hp, if_false, Bool.false_eq_true]
        exact ih _ _

theorem crawl_loop_trace_sub (fetchOk : String → Bool)
    (o : String → FieldType → Option String) (pages : List String)
    (fields : List FieldType) (c : Contractor) :
    ∀ e ∈ (crawl_loop fetchOk o pages fields c).trace, ∀ f ∈ e.2, f ∈ fields := by
  induction pages generalizing fields c with
  | nil => exact fun e he => absurd he (List.not_mem_nil e)
  | cons p rest ih =>
    simp only [crawl_loop]
    by_cases hf : fields.isEmpty = true
    · simp only [hf, if_true]
      exact fun e he => absurd he (List.not_mem_nil e)
    · by_cases hp : fetchOk p = true
      · simp only [hf, hp, if_false, if_true, Bool.false_eq_true]
        intro e he f hfe
        rcases List.mem_cons.mp he with hEq | hrest
        · subst hEq
          exact hfe
        · have h2 := ih _ _ e hrest f hfe
          exact ((mem_scrape_page_fields o p fields c f).mp h2).1
      · simp only [hf, hp, if_false, Bool.false_eq_true]
        intro e he f hfe
        rcases List.mem_cons.mp he with hEq | hrest
        · subst hEq
          exact absurd hfe (List.not_mem_nil f)
        · exact ih _ _ e hrest f hfe

theorem crawl_loop_found_never_rescraped (fetchOk : String → Bool)
    (o : String → FieldType → Option String) (pages : List String)
    (fields : List FieldType) (c : Contractor) :
    foundNeverRescraped o (crawl_loop fetchOk o pages fields c).trace := by
  induction pages generalizing fields c with
  | nil => trivial
  | cons p rest ih =>
    simp only [crawl_loop]
    by_cases hf : fields.isEmpty = true
    · simp only [hf, if_true]
      trivial
    · by_cases hp : fetchOk p = true
      · simp only [hf, hp, if_false, if_true, Bool.false_eq_true]
        refine ⟨?_, ih _ _⟩
        intro f hfmem hfsome e he hmem
        have hsub := crawl_loop_trace_sub fetchOk o rest
          (scrape_page o p fields c).1 (scrape_page o p fields c).2 e he f hmem
        have h2 := (mem_scrape_page_fields o p fields c f).mp hsub
        rw [h2.2] at hfsome
        exact Bool.noConfusion hfsome
      · simp only [hf, hp, if_false, Bool.false_eq_true]
        refine ⟨?_, ih _ _⟩
        intro f hfmem
        exact absurd hfmem (List.not_mem_nil f)

/-! ## Lemma about the email/phone anchor shortcut -/

theorem findHrefWith_of_any (needle : String) (l : List Anchor)
    (h : l.any (anchorHas needle) = true) :
    ∃ s, findHrefWith needle l = some s ∧ containsSubstr needle s = true ∧
      ∃ a ∈ l, a.href = some s := by
  induction l with
  | nil => exact absurd h (by simp)
  | cons a rest ih =>
    cases ha : a.href with
    | some s =>
      by_cases hc : containsSubstr needle s = true
      · exact ⟨s, by simp [findHrefWith, ha, hc], hc, a, List.mem_cons_self a rest, ha⟩
      · have h2 : rest.any (anchorHas needle) = true := by
          rcases List.any_eq_true.mp h with ⟨x, hx, hxp⟩
          rcases List.mem_cons.mp hx with hEq | hxr
          · subst hEq
            exact absurd (by simpa [anchorHas, ha] using hxp) hc
          · exact List.any_eq_true.mpr ⟨x, hxr, hxp⟩
        obtain ⟨s2, h1, h2c, a2, hm, h3⟩ := ih h2
        exact ⟨s2, by simp [findHrefWith, ha, hc, h1], h2c, a2,
          List.mem_cons_of_mem a hm, h3⟩
    | none =>
      have h2 : rest.any (anchorHas needle) = true := by
        rcases List.any_eq_true.mp h with ⟨x, hx, hxp⟩
        rcases List.mem_cons.mp hx with hEq | hxr
        · subst hEq
          exact absurd hxp (by simp [anchorHas, ha])
        · exact List.any_eq_true.mpr ⟨x, hxr, hxp⟩
      obtain ⟨s2, h1, h2c, a2, hm, h3⟩ := ih h2
      exact ⟨s2, by simp [findHrefWith, ha, h1], h2c, a2,
        List.mem_cons_of_mem a hm, h3⟩

/-! ## Claim theorems -/

/-- Claim C1: the crawl loop of `SiteCrawler.__call__` terminates for every
initial frontier and every sequence of scraper outcomes. The visited pages
followed by the leftover frontier are exactly the initial frontier (each
iteration pops exactly one URL and nothing inside the loop ever adds one),
the loop stops exactly when the pending-field set or the frontier is
exhausted, a popped URL is never visited twice, and every field still
pending at the end reads the same as initially on the contractor — so a
crawl that runs out of pages leaves the unresolved fields unset. -/
theorem siteCrawler_crawl_terminates (fetchOk : String → Bool)
    (o : String → FieldType → Option String) (pages : List String)
    (fields : List FieldType) (c : Contractor) (hnd : pages.Nodup) :
    ((crawl_loop fetchOk o pages fields c).trace.map Prod.fst) ++
        (crawl_loop fetchOk o pages fields c).pages = pages
    ∧ ((crawl_loop fetchOk o pages fields c).fields = [] ∨
        (crawl_loop fetchOk o pages fields c).pages = [])
    ∧ ((crawl_loop fetchOk o pages fields c).trace.map Prod.fst).Nodup
    ∧ fieldsUnchanged (crawl_loop fetchOk o pages fields c).fields c
        (crawl_loop fetchOk o pages fields c).contractor := by
  refine ⟨crawl_loop_split fetchOk o pages fields c,
    crawl_loop_guard fetchOk o pages fields c, ?_, ?_⟩
  · have h := crawl_loop_split fetchOk o pages fields c
    rw [← h] at hnd
    exact hnd.of_append_left
  · intro f hf
    exact crawl_loop_read fetchOk o pages fields c f hf

/-- Witness for `siteCrawler_crawl_terminates` at a concrete duplicate-free
two-page frontier where no scraper ever reports found. -/
theorem siteCrawler_crawl_terminates_witness :
    witPages.Nodup
    ∧ (((crawl_loop fetchAllOk oracleNone witPages default_fields contractor0).trace.map
          Prod.fst) ++
          (crawl_loop fetchAllOk oracleNone witPages default_fields contractor0).pages = witPages
      ∧ ((crawl_loop fetchAllOk oracleNone witPages default_fields contractor0).fields = [] ∨
          (crawl_loop fetchAllOk oracleNone witPages default_fields contractor0).pages = [])
      ∧ ((crawl_loop fetchAllOk oracleNone witPages default_fields contractor0).trace.map
          Prod.fst).Nodup
      ∧ fieldsUnchanged
          (crawl_loop fetchAllOk oracleNone witPages default_fields contractor0).fields
          contractor0
          (crawl_loop fetchAllOk oracleNone witPages default_fields contractor0).contractor) :=
  ⟨by decide,
    siteCrawler_crawl_terminates fetchAllOk oracleNone witPages default_fields contractor0
      (by decide)⟩

/-- Claim C2: after a page visit the pending-field set equals the set
before the visit minus exactly the fields whose scraper reported found
(the removal set is computed from the complete gathered batch, after the
join), and along a whole crawl a field found on one page is never part of
the pending set scraped on any later page — first-found-wins per field
across the crawl. -/
theorem scrape_page_join_then_reconcile (o : String → FieldType → Option String)
    (url : String) (fields : List FieldType) (c : Contractor)
    (fetchOk : String → Bool) (pages : List String) :
    (scrape_page o url fields c).1 = fields.filter (fun f => (o url f).isNone)
    ∧ foundNeverRescraped o (crawl_loop fetchOk o pages fields c).trace :=
  ⟨scrape_page_fields_eq o url fields c,
    crawl_loop_found_never_rescraped fetchOk o pages fields c⟩

/-- Claim C3 (code bug): `AddressScraper.__call__` returns the value of
`callback(address)`, which is Python `None`, on every exit path — never
`True`. Its boolean contract (return value truthy iff the callback was
invoked) therefore fails: on a document whose footer yields an address the
callback is invoked once yet the returned value is falsy. -/
theorem addressScraper_breaks_return_contract :
    (∀ oracle d, (addressCall oracle d).ret = PyRet.pyNone)
    ∧ (addressCall oracleFooterAddr docFooterAddr).callbacks = ["123 Main St, Springfield"]
    ∧ PyRet.truthy (addressCall oracleFooterAddr docFooterAddr).ret = false := by
  refine ⟨?_, rfl, rfl⟩
  intro oracle d
  unfold addressCall
  repeat' split
  all_goals rfl

/-- Claim C4 (code bug): `_scrape_page` catches only `ValueError`, so a
fetched page with no `<body>` (an `AttributeError` inside `fetch_site`), a
network failure or a timeout propagates out of the crawl loop and aborts
the whole crawl instead of skipping the one page; only a `ValueError`
fetch failure is skipped as the claim describes. -/
theorem crawl_fetch_failure_aborts :
    crawl_loop_x worldNoBody oracleNone ["https://acme.example/contact"]
        default_fields contractor0 = .error PyExn.attributeError
    ∧ crawl_loop_x worldNetErr oracleNone ["https://acme.example/contact"]
        default_fields contractor0 = .error PyExn.clientError
    ∧ crawl_loop_x worldTimeout oracleNone ["https://acme.example/contact"]
        default_fields contractor0 = .error PyExn.timeoutError
    ∧ crawl_loop_x worldValueErr oracleNone ["https://acme.example/contact"]
        default_fields contractor0 = .ok ([], default_fields, contractor0) :=
  ⟨rfl, rfl, rfl, rfl⟩

/-- Claim C5 (code bug): `SiteMapExtractor.extract` returns a Python
`list[str]`, so `_add_sitemap`'s `getattr(sitemap, 'about')` raises
`AttributeError` on every successful discovery; `except ValueError` does
not catch it, so the whole crawl call aborts instead of proceeding with
the homepage frontier. A chain failure that is a `ValueError`
(`OutputParserException`) is the one soft path; a fetch failure during
discovery likewise propagates. -/
theorem sitemap_discovery_aborts_crawl :
    add_sitemap worldOkEmpty chainOk "https://acme.example" ["https://acme.example"] =
      .error PyExn.attributeError
    ∧ siteCrawler_call_x worldOkEmpty chainOk oracleNone contractor0 =
      .error PyExn.attributeError
    ∧ add_sitemap worldOkEmpty chainParseFail "https://acme.example" ["https://acme.example"] =
      .ok ["https://acme.example"]
    ∧ add_sitemap worldNetErr chainOk "https://acme.example" ["https://acme.example"] =
      .error PyExn.clientError :=
  ⟨rfl, rfl, rfl, rfl⟩

set_option maxRecDepth 4000 in
/-- Claim C6 (code bug): `_snippet_chunks` only yields full batches of 100,
so when the number of collected candidates is not a multiple of the batch
size the trailing candidates are silently dropped. On a document whose
single `<p>` candidate would have answered, the chunked scan yields no
batch at all, the candidate is never offered to the oracle, and the scan
falls through to the flat-chunk fallback; with 150 candidates only the
first 100 are batched. -/
theorem snippet_chunks_drops_partial_batch :
    candidates docLonePara = ["LONE-PARAGRAPH"]
    ∧ oracleLonePara "LONE-PARAGRAPH" = some "42 Elm St"
    ∧ snippet_chunks docLonePara = []
    ∧ tssCall oracleLonePara docLonePara = ⟨false, [], ["FIRST5000", "LAST5000"]⟩
    ∧ fullChunks 100 (List.replicate 150 "el") = [List.replicate 100 "el"] :=
  ⟨rfl, rfl, rfl, rfl, rfl⟩

/-- Claim C7 counterexample: a document that contains the
`mailto:info@x.com` anchor but also an earlier `mailto:` anchor; the
scraper's loop takes the first matching anchor, so the callback receives
`sales@other.com`, not `info@x.com`. -/
theorem emailScraper_first_mailto_wins :
    Anchor.mk (some "mailto:info@x.com") ∈ docTwoMailto.anchors
    ∧ (emailCall snipOracleNone docTwoMailto).found = true
    ∧ (emailCall snipOracleNone docTwoMailto).callbacks = ["sales@other.com"]
    ∧ (emailCall snipOracleNone docTwoMailto).callbacks ≠ ["info@x.com"] := by
  refine ⟨?_, rfl, rfl, by decide⟩
  exact List.mem_cons.mpr (Or.inr (List.mem_cons.mpr (Or.inl rfl)))

/-- Claim C7 (amended): whenever the first anchor whose href contains
`mailto` is exactly `mailto:info@x.com` — in particular when it is the
only such anchor — the Email scraper returns true, invokes its callback
exactly once with `info@x.com`, and never consults the classification
oracle. -/
theorem emailScraper_mailto_shortcut (oracle : String → Option String) (d : Doc)
    (h : findHrefWith "mailto" d.anchors = some "mailto:info@x.com") :
    (emailCall oracle d).found = true
    ∧ (emailCall oracle d).callbacks = ["info@x.com"]
    ∧ (emailCall oracle d).oracleCalls = [] := by
  unfold emailCall
  rw [h]
  exact ⟨rfl, rfl, rfl⟩

/-- Witness for `emailScraper_mailto_shortcut` on the document whose only
anchor is `mailto:info@x.com`. -/
theorem emailScraper_mailto_shortcut_witness :
    findHrefWith "mailto" docOneMailto.anchors = some "mailto:info@x.com"
    ∧ ((emailCall snipOracleNone docOneMailto).found = true
      ∧ (emailCall snipOracleNone docOneMailto).callbacks = ["info@x.com"]
      ∧ (emailCall snipOracleNone docOneMailto).oracleCalls = []) :=
  ⟨rfl, emailScraper_mailto_shortcut snipOracleNone docOneMailto rfl⟩

/-- Claim C8 (code bug): `strip_url` clears the `path` and `params`
components but not `query`, so a canonicalized contractor URL can keep its
query string, contradicting the function's own docstring ("Strip URL of
all query parameters and path"). Evaluated on a search-result URL with a
query: the path is gone but the query survives into the Contractor's
`url`. -/
theorem strip_url_keeps_query :
    strip_url "https://www.example.com/contractors/list?page=2" =
      "https://www.example.com?page=2"
    ∧ (extract_contractor "Acme Builders" searchResultQuery).url =
      "https://www.example.com?page=2"
    ∧ (urlparse ((extract_contractor "Acme Builders" searchResultQuery).url)).query = "page=2"
    ∧ (urlparse ((extract_contractor "Acme Builders" searchResultQuery).url)).path = "" :=
  ⟨by decide, by decide, by decide, by decide⟩

/-- Claim C9 counterexample: in the legacy `parsers.SiteCrawler`, `_pages`
is a class attribute shared by every instance, so a second crawler created
after another one starts with both homepages in its frontier rather than
the singleton of its own. -/
theorem parsers_siteCrawler_shares_state :
    (pInit (pInit pInitial contractor0) contractorB).pages ≠ [contractorB.url]
    ∧ (pInit (pInit pInitial contractor0) contractorB).pages =
        ["https://acme.example", "https://beta.example"] :=
  ⟨by decide, by decide⟩

/-- Claim C9 (amended): `handlers.SiteCrawler.__init__` assigns fresh
per-instance sets, so every instance begins with frontier exactly the
singleton of its own contractor's homepage and pending fields exactly
`{address, email, phone}`, independent of any previously created crawler;
the legacy `parsers.SiteCrawler` violates this via shared class-level
state. -/
theorem siteCrawler_init_fresh_state (c : Contractor) :
    (SiteCrawler.init c).pages = [c.url]
    ∧ (SiteCrawler.init c).fields = default_fields
    ∧ (SiteCrawler.init c).contractor = c :=
  ⟨rfl, rfl, rfl⟩

/-- Claim C10: on any document with an anchor whose href contains `tel:`,
the Phone scraper returns true without consulting the classification
oracle, and its callback receives the (first such) anchor's raw href with
every `tel:` substring removed — no `(###) ###-####` normalization. -/
theorem phoneScraper_tel_shortcut (oracle : String → Option String) (d : Doc)
    (h : d.anchors.any (anchorHas "tel:") = true) :
    (phoneCall oracle d).found = true
    ∧ (phoneCall oracle d).oracleCalls = []
    ∧ (phoneCall oracle d).callbacks =
        [pyReplace ((findHrefWith "tel:" d.anchors).getD "") "tel:" ""]
    ∧ containsSubstr "tel:" ((findHrefWith "tel:" d.anchors).getD "") = true := by
  obtain ⟨s, h1, h2, -⟩ := findHrefWith_of_any "tel:" d.anchors h
  unfold phoneCall
  rw [h1]
  exact ⟨rfl, rfl, rfl, h2⟩

/-- Witness for `phoneScraper_tel_shortcut` on the document whose only
anchor is a `tel:` link. -/
theorem phoneScraper_tel_shortcut_witness :
    docTel.anchors.any (anchorHas "tel:") = true
    ∧ ((phoneCall snipOracleNone docTel).found = true
      ∧ (phoneCall snipOracleNone docTel).oracleCalls = []
      ∧ (phoneCall snipOracleNone docTel).callbacks =
          [pyReplace ((findHrefWith "tel:" docTel.anchors).getD "") "tel:" ""]
      ∧ containsSubstr "tel:" ((findHrefWith "tel:" docTel.anchors).getD "") = true) :=
  ⟨by decide, phoneScraper_tel_shortcut snipOracleNone docTel (by decide)⟩
